import Mathlib

set_option maxRecDepth 40000

/-
Verification of the interpolation/transition engine of `iced_anim`.

The numeric model: Rust `f32` values are embedded as extended rationals
(`F` below): a finite rational, NaN, or a signed infinity.  Finite
arithmetic is exact (no rounding); every property proved below is
structural and does not depend on floating-point rounding, only on the
exact IEEE special-value rules (division by zero, NaN propagation,
clamping of infinities, saturating casts), which the model reproduces
exactly.

Rust panics (u8 overflow/underflow in debug builds, usize underflow,
`Iterator::next().unwrap()` on an exhausted iterator) are modelled by
`Option`: `none` is a panic.
-/

/-- Model of a Rust `f32` value: a finite rational, NaN, or a signed infinity. -/
inductive F where
  | fin : ℚ → F
  | nan : F
  | inf : F
  | neginf : F
deriving DecidableEq

namespace F

/-- IEEE addition on the model. -/
def add : F → F → F
  | nan, _ => nan
  | _, nan => nan
  | fin a, fin b => fin (a + b)
  | inf, neginf => nan
  | neginf, inf => nan
  | inf, _ => inf
  | _, inf => inf
  | neginf, _ => neginf
  | _, neginf => neginf

/-- IEEE negation on the model. -/
def neg : F → F
  | fin a => fin (-a)
  | nan => nan
  | inf => neginf
  | neginf => inf

/-- IEEE subtraction on the model. -/
def sub (x y : F) : F := x.add y.neg

/-- IEEE multiplication on the model. -/
def mul : F → F → F
  | nan, _ => nan
  | _, nan => nan
  | fin a, fin b => fin (a * b)
  | inf, fin b => if b = 0 then nan else if 0 < b then inf else neginf
  | fin a, inf => if a = 0 then nan else if 0 < a then inf else neginf
  | neginf, fin b => if b = 0 then nan else if 0 < b then neginf else inf
  | fin a, neginf => if a = 0 then nan else if 0 < a then neginf else inf
  | inf, inf => inf
  | inf, neginf => neginf
  | neginf, inf => neginf
  | neginf, neginf => inf

/-- IEEE division on the model: `x / 0` is `±inf` for nonzero finite `x`
and `0 / 0` is NaN, exactly as for Rust `f32`. -/
def div : F → F → F
  | nan, _ => nan
  | _, nan => nan
  | fin a, fin b =>
      if b = 0 then (if a = 0 then nan else if 0 < a then inf else neginf)
      else fin (a / b)
  | fin _, inf => fin 0
  | fin _, neginf => fin 0
  | inf, fin b => if 0 ≤ b then inf else neginf
  | neginf, fin b => if 0 ≤ b then neginf else inf
  | inf, inf => nan
  | inf, neginf => nan
  | neginf, inf => nan
  | neginf, neginf => nan

/-- Rust `f32::clamp(lo, hi)` with finite bounds: NaN passes through,
infinities clamp to the bounds and finite values clamp componentwise. -/
def clamp (x : F) (lo hi : ℚ) : F :=
  match x with
  | fin a => fin (min (max a lo) hi)
  | nan => nan
  | inf => fin hi
  | neginf => fin lo

/-- IEEE equality comparison: NaN compares unequal to everything, including itself. -/
def beq : F → F → Bool
  | fin a, fin b => a == b
  | inf, inf => true
  | neginf, neginf => true
  | _, _ => false

/-- Rust `as u8` cast from `f32`: saturating, truncates toward zero, NaN maps to 0. -/
def toU8 : F → Nat
  | nan => 0
  | neginf => 0
  | inf => 255
  | fin a => if a ≤ 0 then 0 else if 255 ≤ a then 255 else ⌊a⌋.toNat

end F

/-- Modelled from the spec: `Progress` lives in
`src/iced_anim/src/transition/progress.rs`, which is not among the provided
sources.  Per the spec it is a tagged union `Forward(p)`/`Reverse(p)` with
p clamped to the unit interval; reverse counts down. -/
inductive Progress where
  | Forward : F → Progress
  | Reverse : F → Progress
deriving DecidableEq

namespace Progress

/-- Modelled from the spec: the stored progress scalar, in forward sense,
used for curve evaluation. -/
def value : Progress → F
  | Forward v => v
  | Reverse v => v

/-- Modelled from the spec: advance by a delta fraction in the current
direction, clamped to the unit interval; the reverse direction counts down. -/
def update (p : Progress) (delta : F) : Progress :=
  match p with
  | Forward v => Forward ((v.add delta).clamp 0 1)
  | Reverse v => Reverse ((v.sub delta).clamp 0 1)

/-- Modelled from the spec: complete iff p is 1.0 in Forward or 0.0 in Reverse. -/
def isComplete : Progress → Bool
  | Forward v => v.beq (F.fin 1)
  | Reverse v => v.beq (F.fin 0)

/-- Modelled from the spec: flip the direction tag in place, preserving the
stored scalar so the visual position is unchanged at the moment of reversal. -/
def reverse : Progress → Progress
  | Forward v => Reverse v
  | Reverse v => Forward v

/-- Modelled from the spec: force p to the terminal value for the current
direction without changing the tag. -/
def settle : Progress → Progress
  | Forward _ => Forward (F.fin 1)
  | Reverse _ => Reverse (F.fin 0)

end Progress

/-- Modelled from the spec: `Curve` lives in
`src/iced_anim/src/transition/curve.rs`, which is not among the provided
sources.  Only the `Linear` variant (the identity easing) is needed by the
properties below; the Bézier variants are irrelevant to them. -/
inductive Curve where
  | Linear
deriving DecidableEq

/-- Modelled from the spec: `Curve::Linear` maps progress to itself. -/
def Curve.value : Curve → F → F
  | .Linear, x => x

/-- The operations the `Animate` bound supplies to `Transition<T>`:
Rust `PartialEq::eq` and the `lerp` method (clone is the identity in a pure
model).  `Transition`'s own code only ever calls these two. -/
structure AnimateOps (T : Type) where
  beq : T → T → Bool
  lerp : T → T → F → T

/-- Modelled from the spec: the `Animate` implementation for `f32`
(`src/iced_anim/src/animate.rs` is not among the provided sources); lerp is
the linear blend start + (end - start) * fraction. -/
def f32lerp (s e frac : F) : F := s.add ((e.sub s).mul frac)

/-- The `Animate` operations for the `f32` model. -/
def f32Ops : AnimateOps F := ⟨F.beq, f32lerp⟩

/-- `Transition<T>` from `src/iced_anim/src/transition.rs`: `duration` is the
duration in seconds (`Duration::as_secs_f32`), `last_update` an instant in
seconds on a monotone clock. -/
structure Transition (T : Type) where
  initial : T
  value : T
  target : T
  curve : Curve
  duration : ℚ
  progress : Progress
  last_update : ℚ
deriving DecidableEq

namespace Transition

variable {T : Type}

/-- `Transition::target` accessor: the logical destination — the `target`
field when moving forward, the `initial` field when reversing. -/
def target' (t : Transition T) : T :=
  match t.progress with
  | .Forward _ => t.target
  | .Reverse _ => t.initial

/-- `Transition::is_animating`. -/
def is_animating (t : Transition T) : Bool := !t.progress.isComplete

/-- `Transition::reverse`: flips only the progress direction. -/
def reverse (t : Transition T) : Transition T :=
  { t with progress := t.progress.reverse }

/-- `Transition::settle`: settles progress, then snaps `value` to the
endpoint selected by the (unchanged) direction. -/
def settle (t : Transition T) : Transition T :=
  let p := t.progress.settle
  match p with
  | .Forward _ => { t with progress := p, value := t.target }
  | .Reverse _ => { t with progress := p, value := t.initial }

/-- `Transition::interrupt`.  Both `Instant::now()` calls inside one
`interrupt` call are modelled as the same instant `now`; note the source
unconditionally overwrites `last_update` at the end anyway. -/
def interrupt (ops : AnimateOps T) (t : Transition T) (tgt : T) (now : ℚ) :
    Transition T :=
  let t1 := if !t.is_animating then { t with last_update := now } else t
  let is_initial_target :=
    match t1.progress with
    | .Forward _ => ops.beq tgt t1.initial
    | .Reverse _ => ops.beq tgt t1.target
  let t2 :=
    if is_initial_target && !t1.progress.isComplete then t1.reverse
    else if !(ops.beq tgt t1.target') then
      { t1 with progress := .Forward (F.fin 0), initial := t1.value, target := tgt }
    else t1
  { t2 with last_update := now }

/-- `Transition::tick`: `Instant::duration_since` saturates at zero, so the
elapsed time is `max (now - last_update) 0`. -/
def tick (ops : AnimateOps T) (t : Transition T) (now : ℚ) : Transition T :=
  if !t.is_animating then t
  else
    let delta : ℚ := max (now - t.last_update) 0
    let frac : F := F.div (F.fin delta) (F.fin t.duration)
    let t2 : Transition T :=
      { t with last_update := now, progress := t.progress.update frac }
    if t2.progress.isComplete then { t2 with value := t2.target' }
    else
      { t2 with value := ops.lerp t2.initial t2.target (t2.curve.value t2.progress.value) }

end Transition

/-- `syntect::highlighting::Color`: four `u8` channels, modelled as `Nat`
with u8 arithmetic made explicit in the operations. -/
structure Color where
  r : Nat
  g : Nat
  b : Nat
  a : Nat
deriving DecidableEq

/-- `syntect::highlighting::StyleModifier`, restricted to the fields the
`Animate` implementations touch. -/
structure StyleModifier where
  foreground : Color
  background : Color
deriving DecidableEq

/-- `syntect::highlighting::ThemeItem`, restricted to the fields the
`Animate` implementations touch. -/
structure ThemeItem where
  style : StyleModifier
deriving DecidableEq

/-- `syntect::highlighting::Theme`, restricted to the `scopes` list, the
only field the `Animate` implementations touch. -/
structure HTheme where
  scopes : List ThemeItem
deriving DecidableEq

/-- The component iterator threaded through nested `Animate::update` calls:
a flat list of scalars consumed from the front. -/
abbrev Iter := List F

/-- `Iterator::next`: `none` when exhausted. -/
def Iter.next : Iter → Option (F × Iter)
  | [] => none
  | x :: xs => some (x, xs)

namespace HL

/-- `impl Animate for u8` in `src/iced_anim/src/highlighter.rs`:
`components`. -/
def U8.components : Nat := 1

/-- `impl Animate for u8` in `src/iced_anim/src/highlighter.rs`: `update`
does `*self += components.next().unwrap() as u8`; the saturating float cast
is followed by a bare u8 addition, so the result is `none` (a debug-build
overflow panic) when the sum exceeds 255, and `none` on an exhausted
iterator (the `unwrap` panic). -/
def U8.update (x : Nat) (it : Iter) : Option (Nat × Iter) := do
  let (c, it) ← it.next
  let d := c.toU8
  if x + d ≤ 255 then some (x + d, it) else none

/-- `impl Animate for u8` in `src/iced_anim/src/highlighter.rs`:
`distance_to` is the normalized difference of the channels. -/
def U8.distance_to (x e : Nat) : List F :=
  [F.fin ((x : ℚ) / 255 - (e : ℚ) / 255)]

/-- One channel of `impl Animate for Color::update` in
`src/iced_anim/src/highlighter.rs`: normalize, add the delta, clamp to the
unit interval, scale back and cast. -/
def channelUpdate (x : Nat) (c : F) : Nat :=
  ((((F.fin ((x : ℚ) / 255)).add c).clamp 0 1).mul (F.fin 255)).toU8

/-- `impl Animate for Color` in `src/iced_anim/src/highlighter.rs`:
`update` consumes four components in r, g, b, a order; `none` only when the
iterator has fewer than four elements (the `unwrap` panics). -/
def Color.update (c : Color) (it : Iter) : Option (Color × Iter) :=
  match it with
  | d1 :: d2 :: d3 :: d4 :: rest =>
      some (⟨channelUpdate c.r d1, channelUpdate c.g d2,
             channelUpdate c.b d3, channelUpdate c.a d4⟩, rest)
  | _ => none

/-- `impl Animate for Color` in `src/iced_anim/src/highlighter.rs`:
`components`. -/
def Color.components : Nat := 4

/-- `impl Animate for Color` in `src/iced_anim/src/highlighter.rs`:
`distance_to` concatenates the per-channel distances, channelwise against
the matching channel of `end`. -/
def Color.distance_to (c e : Color) : List F :=
  U8.distance_to c.r e.r ++ U8.distance_to c.g e.g ++
    U8.distance_to c.b e.b ++ U8.distance_to c.a e.a

/-- `impl Animate for StyleModifier` in `src/iced_anim/src/highlighter.rs`:
`components`. -/
def StyleModifier.components : Nat := Color.components * 2

/-- `impl Animate for StyleModifier` in `src/iced_anim/src/highlighter.rs`:
`update` runs the foreground then the background color update. -/
def StyleModifier.update (s : StyleModifier) (it : Iter) :
    Option (StyleModifier × Iter) := do
  let (f2, it) ← Color.update s.foreground it
  let (b2, it) ← Color.update s.background it
  pure (⟨f2, b2⟩, it)

/-- `impl Animate for StyleModifier` in `src/iced_anim/src/highlighter.rs`:
`distance_to`. -/
def StyleModifier.distance_to (s e : StyleModifier) : List F :=
  Color.distance_to s.foreground e.foreground ++
    Color.distance_to s.background e.background

/-- `impl Animate for ThemeItem` in `src/iced_anim/src/highlighter.rs`:
`components`. -/
def ThemeItem.components : Nat := StyleModifier.components

/-- `impl Animate for ThemeItem` in `src/iced_anim/src/highlighter.rs`:
`update` delegates to the style. -/
def ThemeItem.update (x : ThemeItem) (it : Iter) : Option (ThemeItem × Iter) := do
  let (s2, it) ← StyleModifier.update x.style it
  pure (⟨s2⟩, it)

/-- `impl Animate for ThemeItem` in `src/iced_anim/src/highlighter.rs`:
`distance_to`. -/
def ThemeItem.distance_to (x e : ThemeItem) : List F :=
  StyleModifier.distance_to x.style e.style

/-- `impl Animate for Theme` in `src/iced_anim/src/highlighter.rs`:
`components` is 150 theme items worth of scalars. -/
def Theme.components : Nat := ThemeItem.components * 150

/-- The `for item in self.scopes.iter_mut()` loop of
`impl Animate for Theme::update` in `src/iced_anim/src/highlighter.rs`:
updates each scope item in order, threading the iterator. -/
def updateScopes : List ThemeItem → Iter → Option (List ThemeItem × Iter)
  | [], it => some ([], it)
  | x :: xs, it => do
    let (x2, it) ← ThemeItem.update x it
    let (rest, it) ← updateScopes xs it
    pure (x2 :: rest, it)

/-- `impl Animate for Theme` in `src/iced_anim/src/highlighter.rs`:
`update` runs the scope loop, then computes
`extra = components() - scopes.len() * ThemeItem::components() - 1` in
`usize` — `none` when that subtraction underflows (a panic) — and skips
`extra + 1` further elements via `components.nth(extra)`. -/
def Theme.update (t : HTheme) (it : Iter) : Option (HTheme × Iter) := do
  let (scopes, it) ← updateScopes t.scopes it
  let consumed := t.scopes.length * ThemeItem.components
  if consumed + 1 ≤ Theme.components then
    some (⟨scopes⟩, it.drop (Theme.components - consumed - 1 + 1))
  else none

/-- `impl Animate for Theme` in `src/iced_anim/src/highlighter.rs`:
`distance_to` zips the overlapping prefix of the scope lists, flattens the
item distances and resizes the vector to `components()` with zero padding. -/
def Theme.distance_to (s e : HTheme) : List F :=
  let d := ((s.scopes.zip (e.scopes.take s.scopes.length)).map
      (fun p => ThemeItem.distance_to p.1 p.2)).flatten
  (d.take Theme.components) ++
    List.replicate (Theme.components - d.length) (F.fin 0)

end HL

namespace HLMod

/-- `impl Animate for u8` in `src/iced_anim/src/highlighter/mod.rs`:
`distance_to` is `vec![f32::from(self - end)]` — a bare u8 subtraction, so
the result is `none` (a debug-build underflow panic) when `self < end`. -/
def U8.distance_to (x e : Nat) : Option (List F) :=
  if e ≤ x then some [F.fin ((x - e : Nat) : ℚ)] else none

/-- `impl Animate for u8` in `src/iced_anim/src/highlighter/mod.rs`:
`update` is the same bare u8 addition as the sibling file. -/
def U8.update (x : Nat) (it : Iter) : Option (Nat × Iter) := do
  let (c, it) ← it.next
  let d := c.toU8
  if x + d ≤ 255 then some (x + d, it) else none

/-- One channel of `impl Animate for Color::update` in
`src/iced_anim/src/highlighter/mod.rs`:
`(self.r + (delta * 255.0) as u8).clamp(0, 255)` — the cast saturates but
the u8 addition itself can overflow, so `none` models that panic; the
trailing `clamp(0, 255)` on a `u8` is a no-op. -/
def channelUpdate (x : Nat) (c : F) : Option Nat :=
  let d := (c.mul (F.fin 255)).toU8
  if x + d ≤ 255 then some (x + d) else none

/-- `impl Animate for Color` in `src/iced_anim/src/highlighter/mod.rs`:
`update` consumes four components in r, g, b, a order. -/
def Color.update (c : Color) (it : Iter) : Option (Color × Iter) := do
  let (d1, it) ← it.next
  let r2 ← channelUpdate c.r d1
  let (d2, it) ← it.next
  let g2 ← channelUpdate c.g d2
  let (d3, it) ← it.next
  let b2 ← channelUpdate c.b d3
  let (d4, it) ← it.next
  let a2 ← channelUpdate c.a d4
  pure (⟨r2, g2, b2, a2⟩, it)

/-- `impl Animate for Color` in `src/iced_anim/src/highlighter/mod.rs`:
`distance_to` compares `self.r`, `self.g`, `self.b` and `self.a` each
against `end.r` (the g, b, a channels of `end` are never read). -/
def Color.distance_to (c e : Color) : Option (List F) := do
  let d1 ← U8.distance_to c.r e.r
  let d2 ← U8.distance_to c.g e.r
  let d3 ← U8.distance_to c.b e.r
  let d4 ← U8.distance_to c.a e.r
  pure (d1 ++ d2 ++ d3 ++ d4)

/-- `impl Animate for StyleModifier` in
`src/iced_anim/src/highlighter/mod.rs`: `distance_to`. -/
def StyleModifier.distance_to (s e : StyleModifier) : Option (List F) := do
  let df ← Color.distance_to s.foreground e.foreground
  let db ← Color.distance_to s.background e.background
  pure (df ++ db)

/-- `impl Animate for ThemeItem` in `src/iced_anim/src/highlighter/mod.rs`:
`distance_to`. -/
def ThemeItem.distance_to (x e : ThemeItem) : Option (List F) :=
  StyleModifier.distance_to x.style e.style

/-- `impl Animate for Theme` in `src/iced_anim/src/highlighter/mod.rs`:
`components` is 200 theme items worth of scalars. -/
def Theme.components : Nat := HL.ThemeItem.components * 200

/-- `impl Animate for Theme` in `src/iced_anim/src/highlighter/mod.rs`:
`distance_to` zips `self.scopes` with `end.scopes.take(self.scopes.len() * 2)`
and flattens — there is no resize, so the result has
`8 * min(self.scopes.len(), end.scopes.len())` entries, not `components()`. -/
def Theme.distance_to (s e : HTheme) : Option (List F) := do
  let parts ← (s.scopes.zip (e.scopes.take (s.scopes.length * 2))).mapM
      (fun p => ThemeItem.distance_to p.1 p.2)
  pure parts.flatten

end HLMod

/-- The `Theme` enum of `src/iced_anim/src/highlighter/theme.rs`; the
`Custom` variant's `Arc` is modelled as the wrapped value. -/
inductive Theme where
  | SolarizedDark
  | SolarizedLight
  | Base16Mocha
  | Base16OceanDark
  | Base16OceanLight
  | Base16Eighties
  | InspiredGitHub
  | Custom : HTheme → Theme
deriving DecidableEq

/-- `Theme::highlighter_theme` from `src/iced_anim/src/highlighter/theme.rs`.
The external `THEMES` table (`syntect`'s default theme set) is passed as an
abstract map; the function-local `static HIGHLIGHTER_THEME: OnceCell` shared
by every call is threaded explicitly as the `cell` state: `get_or_init`
returns the cached theme when the cell is full, otherwise initializes it
with a clone of the argument's wrapped theme. -/
def Theme.highlighter_theme (themes : String → HTheme) (t : Theme)
    (cell : Option HTheme) : HTheme × Option HTheme :=
  match t with
  | .SolarizedDark => (themes "Solarized (dark)", cell)
  | .SolarizedLight => (themes "Solarized (light)", cell)
  | .Base16Mocha => (themes "base16-mocha.dark", cell)
  | .Base16OceanDark => (themes "base16-ocean.dark", cell)
  | .Base16OceanLight => (themes "base16-ocean.light", cell)
  | .Base16Eighties => (themes "base16-eighties.dark", cell)
  | .InspiredGitHub => (themes "InspiredGitHub", cell)
  | .Custom custom =>
      match cell with
      | some cached => (cached, some cached)
      | none => (custom, some custom)

/-- C7: for every `Transition<T>`, immediately after `settle()`,
`is_animating()` is false and the stored value equals the value returned by
`target()` — the `target` field when progress is Forward, the `initial`
field when Reverse. -/
theorem settle_completes_at_logical_target {T : Type} (t : Transition T) :
    (t.settle).is_animating = false ∧ (t.settle).value = (t.settle).target' := by
  cases hp : t.progress <;>
    simp [Transition.settle, Transition.is_animating, Transition.target',
      Progress.settle, Progress.isComplete, F.beq, hp]

/-- Helper shared by the completion and zero-duration properties: when an
animating transition's tick ends with complete progress, its value was
snapped to the logical target and it stopped animating. -/
theorem tick_complete_snaps_aux {T : Type} (ops : AnimateOps T)
    (t : Transition T) (now : ℚ)
    (ha : t.is_animating = true)
    (hc : (t.tick ops now).progress.isComplete = true) :
    (t.tick ops now).value = (t.tick ops now).target' ∧
      (t.tick ops now).is_animating = false := by
  unfold Transition.tick at hc ⊢
  rw [ha] at hc ⊢
  simp only [Bool.not_true, Bool.false_eq_true, if_false] at hc ⊢
  split at hc <;> rename_i hcond
  · rw [if_pos hcond]
    exact ⟨rfl, by simp [Transition.is_animating, hcond]⟩
  · exact absurd hc hcond

/-- C2: for every animating `Transition<T>`, whenever a call to `tick`
makes the progress complete, the stored value is set exactly to the logical
target (the `target` field when Forward, `initial` when Reverse, i.e. the
`target()` accessor) and `is_animating()` is false immediately after. -/
theorem tick_completion_snaps_to_target {T : Type} (ops : AnimateOps T)
    (t : Transition T) (now : ℚ)
    (ha : t.is_animating = true)
    (hc : (t.tick ops now).progress.isComplete = true) :
    (t.tick ops now).value = (t.tick ops now).target' ∧
      (t.tick ops now).is_animating = false :=
  tick_complete_snaps_aux ops t now ha hc

/-- Concrete linear transition from 0 to 1 over one second, used as the
completion witness input. -/
def trC2 : Transition F :=
  { initial := F.fin 0, value := F.fin 0, target := F.fin 1,
    curve := .Linear, duration := 1, progress := .Forward (F.fin 0),
    last_update := 0 }

/-- Closed witness for the completion theorem: `trC2` ticked one second
after its last update completes and snaps to the target. -/
theorem tick_completion_snaps_to_target_witness :
    (trC2.tick f32Ops 1).value = (trC2.tick f32Ops 1).target' ∧
      (trC2.tick f32Ops 1).is_animating = false :=
  tick_completion_snaps_to_target f32Ops trC2 1
    (by norm_num [trC2, Transition.is_animating, Progress.isComplete, F.beq])
    (by norm_num [trC2, Transition.tick, Transition.is_animating,
      Progress.isComplete, Progress.update, F.beq, F.add, F.div, F.clamp])

/-- C3: for every animating `Transition<T>`, interrupting with a new target
that compares equal to the opposite endpoint of the current direction (the
`initial` field when Forward, the `target` field when Reverse) reverses the
transition: the progress direction flips in place and the `initial`,
`value` and `target` fields are left unchanged — progress is not reset
to 0. -/
theorem interrupt_opposite_endpoint_reverses {T : Type} (ops : AnimateOps T)
    (t : Transition T) (tgt : T) (now : ℚ)
    (ha : t.is_animating = true)
    (hb : (match t.progress with
           | .Forward _ => ops.beq tgt t.initial
           | .Reverse _ => ops.beq tgt t.target) = true) :
    t.interrupt ops tgt now =
      { t with progress := t.progress.reverse, last_update := now } := by
  have hic : t.progress.isComplete = false := by
    simpa [Transition.is_animating] using ha
  unfold Transition.interrupt
  rw [ha]
  cases hp : t.progress <;>
    simp_all [Transition.reverse, Progress.reverse]

/-- Concrete half-way forward transition from 0 to 1, used as the reversal
witness input. -/
def trC3 : Transition F :=
  { initial := F.fin 0, value := F.fin (1/2), target := F.fin 1,
    curve := .Linear, duration := 1, progress := .Forward (F.fin (1/2)),
    last_update := 0 }

/-- Closed witness for the reversal theorem: `trC3` interrupted with its
initial value 0 reverses in place. -/
theorem interrupt_opposite_endpoint_reverses_witness :
    trC3.interrupt f32Ops (F.fin 0) 5 =
      { trC3 with progress := trC3.progress.reverse, last_update := 5 } :=
  interrupt_opposite_endpoint_reverses f32Ops trC3 (F.fin 0) 5
    (by norm_num [trC3, Transition.is_animating, Progress.isComplete, F.beq])
    (by simp [trC3, f32Ops, F.beq])

/-- C10: `Theme::highlighter_theme` is not value-dependent for the `Custom`
variant: with the shared once-cell initially empty, the first call on
`Custom t1` returns `t1` and fills the cell, and a subsequent call on any
`Custom t2` returns the cached `t1`, not `t2`. -/
theorem highlighter_theme_caches_first_custom (themes : String → HTheme)
    (t1 t2 : HTheme) :
    (Theme.highlighter_theme themes (Theme.Custom t1) none).1 = t1 ∧
    (Theme.highlighter_theme themes (Theme.Custom t2)
      (Theme.highlighter_theme themes (Theme.Custom t1) none).2).1 = t1 := by
  constructor <;> rfl

/-- Concrete zero-duration transition used for the zero-duration
counterexample: animating from 0 toward 1. -/
def trC1 : Transition F :=
  { initial := F.fin 0, value := F.fin 0, target := F.fin 1,
    curve := .Linear, duration := 0, progress := .Forward (F.fin 0),
    last_update := 0 }

/-- C1 counterexample: ticking a zero-duration animating transition at the
very instant of its last update computes 0/0 = NaN, stores NaN in progress
(so the transition does not settle) and propagates NaN into the stored
value — the claimed guard does not exist in `tick`. -/
theorem tick_zero_duration_nan_counterexample :
    (trC1.tick f32Ops 0).value = F.nan ∧
      (trC1.tick f32Ops 0).is_animating = true := by
  norm_num [trC1, Transition.tick, Transition.is_animating, Transition.target',
    Progress.isComplete, Progress.update, Progress.value, F.beq, F.add, F.div,
    F.clamp, f32Ops, f32lerp, F.sub, F.neg, F.mul, Curve.value]

/-- C1 (amended): on an animating transition with zero duration, a finite
progress scalar and strictly positive elapsed time, `tick` behaves as
instantaneous: the division yields infinity, the clamp turns it into
terminal progress, and the value is snapped exactly to the logical target
with no NaN or infinity stored; with zero elapsed time the 0/0 division
instead propagates NaN (see the counterexample). -/
theorem tick_zero_duration_settles {T : Type} (ops : AnimateOps T)
    (t : Transition T) (now : ℚ)
    (hd : t.duration = 0)
    (ha : t.is_animating = true)
    (hfin : ∃ a, t.progress.value = F.fin a)
    (hlt : t.last_update < now) :
    (t.tick ops now).value = (t.tick ops now).target' ∧
      (t.tick ops now).is_animating = false := by
  have h1 : max (now - t.last_update) 0 = now - t.last_update :=
    max_eq_left (by linarith)
  have h2 : now - t.last_update ≠ 0 := by intro h; linarith [sub_eq_zero.mp h]
  have h3 : (0 : ℚ) < now - t.last_update := by linarith
  have hcomp :
      (t.progress.update
        (F.div (F.fin (max (now - t.last_update) 0)) (F.fin t.duration))).isComplete
        = true := by
    obtain ⟨a, hv⟩ := hfin
    rw [hd, h1]
    cases hp : t.progress with
    | Forward v =>
        rw [hp] at hv
        simp only [Progress.value] at hv
        subst hv
        simp [Progress.update, F.div, F.add, F.clamp, Progress.isComplete,
          F.beq, h2, h3]
    | Reverse v =>
        rw [hp] at hv
        simp only [Progress.value] at hv
        subst hv
        simp [Progress.update, F.div, F.sub, F.neg, F.add, F.clamp,
          Progress.isComplete, F.beq, h2, h3]
  apply tick_complete_snaps_aux ops t now ha
  unfold Transition.tick
  rw [ha]
  simp only [Bool.not_true, Bool.false_eq_true, if_false]
  split <;> exact hcomp

/-- Concrete zero-duration transition ticked strictly after its last
update, for the amended zero-duration theorem's witness. -/
def trC1w : Transition F :=
  { initial := F.fin 0, value := F.fin 0, target := F.fin 1,
    curve := .Linear, duration := 0, progress := .Forward (F.fin 0),
    last_update := 0 }

/-- Closed witness for the amended zero-duration theorem. -/
theorem tick_zero_duration_settles_witness :
    (trC1w.tick f32Ops 1).value = (trC1w.tick f32Ops 1).target' ∧
      (trC1w.tick f32Ops 1).is_animating = false :=
  tick_zero_duration_settles f32Ops trC1w 1 rfl
    (by norm_num [trC1w, Transition.is_animating, Progress.isComplete, F.beq])
    ⟨0, rfl⟩
    (by norm_num [trC1w])

/-- Concrete degenerate transition whose `initial` and `target` fields are
equal while the progress is incomplete, for the retarget counterexample. -/
def trC4 : Transition F :=
  { initial := F.fin 0, value := F.fin 0, target := F.fin 0,
    curve := .Linear, duration := 1, progress := .Forward (F.fin (1/2)),
    last_update := 0 }

/-- C4 counterexample: on the degenerate animating transition whose
`initial` equals its `target`, interrupting with the current logical target
takes the reversal branch and flips the progress direction — more than the
`last_update` timestamp changes. -/
theorem interrupt_same_target_counterexample :
    (trC4.interrupt f32Ops trC4.target' 5).progress ≠ trC4.progress ∧
      trC4.is_animating = true := by
  constructor
  · have hval : (trC4.interrupt f32Ops trC4.target' 5).progress
        = Progress.Reverse (F.fin (1/2)) := by
      norm_num [trC4, Transition.interrupt, Transition.target',
        Transition.is_animating, Progress.isComplete, F.beq, f32Ops,
        Transition.reverse, Progress.reverse]
    rw [hval]
    simp [trC4]
  · norm_num [trC4, Transition.is_animating, Progress.isComplete, F.beq]

/-- C4 (amended): interrupting with the current logical target changes only
the `last_update` timestamp, provided the logical target compares equal to
itself (no NaN-like payload) and the reversal guard does not fire — the
logical target does not also compare equal to the opposite endpoint while
the transition is animating. -/
theorem interrupt_same_target_only_last_update {T : Type} (ops : AnimateOps T)
    (t : Transition T) (now : ℚ)
    (hrefl : ops.beq t.target' t.target' = true)
    (hguard : (match t.progress with
               | .Forward _ => ops.beq t.target t.initial
               | .Reverse _ => ops.beq t.initial t.target) = false
              ∨ t.progress.isComplete = true) :
    t.interrupt ops t.target' now = { t with last_update := now } := by
  unfold Transition.interrupt
  by_cases hb : t.progress.isComplete = true
  all_goals cases hp : t.progress
  all_goals rcases hguard with hg | hg
  all_goals
    simp_all [Transition.is_animating, Transition.target', Transition.reverse]

/-- Concrete quarter-way transition from 0 to 1 whose endpoints differ,
for the retarget-idempotence witness. -/
def trW4 : Transition F :=
  { initial := F.fin 0, value := F.fin (1/4), target := F.fin 1,
    curve := .Linear, duration := 1, progress := .Forward (F.fin (1/4)),
    last_update := 0 }

/-- Closed witness for the amended retarget theorem: interrupting `trW4`
with its logical target only refreshes `last_update`. -/
theorem interrupt_same_target_only_last_update_witness :
    trW4.interrupt f32Ops trW4.target' 7 = { trW4 with last_update := 7 } :=
  interrupt_same_target_only_last_update f32Ops trW4 7
    (by simp [trW4, Transition.target', f32Ops, F.beq])
    (Or.inl (by norm_num [trW4, f32Ops, F.beq]))

/-- Saturating-cast bound: the modelled `as u8` cast always lands in the
u8 range. -/
theorem F.toU8_le (x : F) : x.toU8 ≤ 255 := by
  cases x with
  | fin a =>
      simp only [F.toU8]
      split
      · omega
      · split
        · omega
        · rename_i h1 h2
          have hfl : (⌊a⌋ : ℚ) ≤ a := Int.floor_le a
          have hlt : ⌊a⌋ < 255 := by
            have ha : a < 255 := lt_of_not_le h2
            exact_mod_cast lt_of_le_of_lt hfl ha
          omega
  | nan => simp [F.toU8]
  | inf => simp [F.toU8]
  | neginf => simp [F.toU8]

/-- C6 counterexample: the `u8` Animate `update` in
`src/iced_anim/src/highlighter.rs` adds the cast delta to the channel with
a bare u8 addition — at channel 255 and delta 1.0 the addition overflows
(a debug-build panic, a wrap in release), modelled as `none`. -/
theorem u8_update_overflow_counterexample :
    HL.U8.update 255 [F.fin 1] = none := by
  norm_num [HL.U8.update, Iter.next, F.toU8]

/-- C6 (amended): the `Color` Animate implementation in
`src/iced_anim/src/highlighter.rs` does clamp its channel arithmetic: for
any deltas (finite, infinite or NaN) `update` succeeds whenever the
iterator has at least four components, the resulting channels always lie in
the u8 range with no overflow or panic, and `distance_to` only ever
produces finite components; the bare-u8-addition `u8` `update`
implementations and the `mod.rs` `Color` `update` remain able to overflow
(see the counterexample). -/
theorem hl_color_update_clamped (c e : Color) (it : Iter)
    (h : 4 ≤ it.length) :
    (∃ c2 it2, HL.Color.update c it = some (c2, it2) ∧
      c2.r ≤ 255 ∧ c2.g ≤ 255 ∧ c2.b ≤ 255 ∧ c2.a ≤ 255) ∧
    (∀ d ∈ HL.Color.distance_to c e, ∃ q, d = F.fin q) := by
  constructor
  · rcases it with _ | ⟨d1, _ | ⟨d2, _ | ⟨d3, _ | ⟨d4, rest⟩⟩⟩⟩ <;>
      simp_all [HL.Color.update]
    exact ⟨F.toU8_le _, F.toU8_le _, F.toU8_le _, F.toU8_le _⟩
  · intro d hd
    simp only [HL.Color.distance_to, HL.U8.distance_to, List.mem_append,
      List.mem_singleton] at hd
    rcases hd with ((h | h) | h) | h <;> exact ⟨_, h⟩

/-- Closed witness for the amended clamping theorem, at a concrete color
and a concrete four-component iterator containing an overflowing delta. -/
theorem hl_color_update_clamped_witness :
    (∃ c2 it2,
      HL.Color.update ⟨200, 0, 255, 17⟩ [F.fin 9, F.nan, F.inf, F.fin (-3)]
        = some (c2, it2) ∧
      c2.r ≤ 255 ∧ c2.g ≤ 255 ∧ c2.b ≤ 255 ∧ c2.a ≤ 255) ∧
    (∀ d ∈ HL.Color.distance_to ⟨200, 0, 255, 17⟩ ⟨1, 2, 3, 4⟩,
      ∃ q, d = F.fin q) :=
  hl_color_update_clamped ⟨200, 0, 255, 17⟩ ⟨1, 2, 3, 4⟩
    [F.fin 9, F.nan, F.inf, F.fin (-3)] (by simp)

/-- C5: the `Color` Animate `distance_to` in
`src/iced_anim/src/highlighter/mod.rs` compares the g, b and a channels
against `end.r`, so the distance from a color to itself is not the zero
vector: at r=0, g=255, b=0, a=0 it is [0, 255, 0, 0]. -/
theorem mod_color_distance_self_nonzero :
    HLMod.Color.distance_to ⟨0, 255, 0, 0⟩ ⟨0, 255, 0, 0⟩
        = some [F.fin 0, F.fin 255, F.fin 0, F.fin 0] ∧
      some [F.fin 0, F.fin 255, F.fin 0, F.fin 0]
        ≠ some (List.replicate 4 (F.fin 0)) := by
  constructor
  · norm_num [HLMod.Color.distance_to, HLMod.U8.distance_to]
  · norm_num [List.replicate]

/-- C8: the `Theme` Animate `distance_to` in
`src/iced_anim/src/highlighter/mod.rs` never pads: for two themes with
empty scope lists it returns the empty vector, whose length 0 is not the
type-level component count. -/
theorem mod_theme_distance_not_padded :
    HLMod.Theme.distance_to ⟨[]⟩ ⟨[]⟩ = some [] ∧
      (0 : Nat) ≠ HLMod.Theme.components := by
  exact ⟨rfl, by decide⟩

/-- Consumption lemma: a color update consumes exactly four components
whenever the iterator has at least four. -/
theorem color_update_consumes (c : Color) (it : Iter) (h : 4 ≤ it.length) :
    ∃ c2 it2, HL.Color.update c it = some (c2, it2) ∧
      it2.length + 4 = it.length := by
  rcases it with _ | ⟨d1, it⟩
  · simp at h
  rcases it with _ | ⟨d2, it⟩
  · simp at h
  rcases it with _ | ⟨d3, it⟩
  · simp at h
  rcases it with _ | ⟨d4, rest⟩
  · simp at h
  exact ⟨_, rest, rfl, by simp [List.length_cons]⟩

/-- Consumption lemma: a style-modifier update consumes exactly eight
components whenever the iterator has at least eight. -/
theorem styleModifier_update_consumes (s : StyleModifier) (it : Iter)
    (h : 8 ≤ it.length) :
    ∃ s2 it2, HL.StyleModifier.update s it = some (s2, it2) ∧
      it2.length + 8 = it.length := by
  obtain ⟨f2, it1, hf, h1⟩ := color_update_consumes s.foreground it (by omega)
  obtain ⟨b2, it2, hb, h2⟩ := color_update_consumes s.background it1 (by omega)
  exact ⟨⟨f2, b2⟩, it2, by simp [HL.StyleModifier.update, hf, hb], by omega⟩

/-- Consumption lemma: a theme-item update consumes exactly
`ThemeItem::components()` = 8 components whenever the iterator has at least
eight. -/
theorem themeItem_update_consumes (x : ThemeItem) (it : Iter)
    (h : 8 ≤ it.length) :
    ∃ x2 it2, HL.ThemeItem.update x it = some (x2, it2) ∧
      it2.length + 8 = it.length := by
  obtain ⟨s2, it2, hs, h1⟩ := styleModifier_update_consumes x.style it h
  exact ⟨⟨s2⟩, it2, by simp [HL.ThemeItem.update, hs], h1⟩

/-- Consumption lemma: the scope loop consumes exactly eight components per
scope entry, in order, whenever the iterator is long enough. -/
theorem updateScopes_consumes (xs : List ThemeItem) (it : Iter)
    (h : xs.length * 8 ≤ it.length) :
    ∃ ys it2, HL.updateScopes xs it = some (ys, it2) ∧
      it2.length + xs.length * 8 = it.length := by
  induction xs generalizing it with
  | nil => exact ⟨[], it, rfl, by simp⟩
  | cons x xs ih =>
      have hlc : (x :: xs).length * 8 = xs.length * 8 + 8 := by
        simp [List.length_cons]; ring
      have hx8 : 8 ≤ it.length := by omega
      obtain ⟨x2, it1, hx, h1⟩ := themeItem_update_consumes x it hx8
      obtain ⟨ys, it2, hy, h2⟩ := ih it1 (by omega)
      exact ⟨x2 :: ys, it2, by simp [HL.updateScopes, hx, hy], by omega⟩

/-- C9 (amended): for a theme whose scope list has strictly fewer than
`Theme::components() / ThemeItem::components()` = 150 entries and an
iterator holding at least `Theme::components()` = 1200 components, the
theme update consumes exactly `Theme::components()` components: eight per
scope entry in order, the trailing padding skipped via `nth`; at exactly
150 entries the `usize` computation of the padding count underflows and
panics instead (see the counterexample). -/
theorem theme_update_consumes_components (t : HTheme) (it : Iter)
    (hlen : t.scopes.length * HL.ThemeItem.components + 1 ≤ HL.Theme.components)
    (hit : HL.Theme.components ≤ it.length) :
    ∃ t2 it2, HL.Theme.update t it = some (t2, it2) ∧
      it2.length + HL.Theme.components = it.length := by
  have hitem : HL.ThemeItem.components = 8 := rfl
  have hcomp : HL.Theme.components = 1200 := rfl
  have hlenN : t.scopes.length * 8 + 1 ≤ 1200 := by
    have h := hlen; rw [hitem, hcomp] at h; exact h
  have hitN : 1200 ≤ it.length := by
    have h := hit; rw [hcomp] at h; exact h
  obtain ⟨ys, it1, hs, h1⟩ := updateScopes_consumes t.scopes it (by omega)
  have hupd : HL.Theme.update t it
      = some (⟨ys⟩, it1.drop (HL.Theme.components
          - t.scopes.length * HL.ThemeItem.components - 1 + 1)) := by
    unfold HL.Theme.update
    rw [hs]
    exact if_pos hlen
  refine ⟨⟨ys⟩, _, hupd, ?_⟩
  rw [List.length_drop, hitem, hcomp]
  omega

/-- Concrete all-zero theme item for the theme-update inputs. -/
def itemZ : ThemeItem := ⟨⟨⟨0, 0, 0, 0⟩, ⟨0, 0, 0, 0⟩⟩⟩

/-- Closed witness for the theme-update consumption theorem: one scope
entry and an iterator of exactly 1200 zero components. -/
theorem theme_update_consumes_components_witness :
    ∃ t2 it2,
      HL.Theme.update ⟨[itemZ]⟩ (List.replicate 1200 (F.fin 0))
          = some (t2, it2) ∧
        it2.length + HL.Theme.components
          = (List.replicate 1200 (F.fin 0)).length :=
  theme_update_consumes_components ⟨[itemZ]⟩ (List.replicate 1200 (F.fin 0))
    (by norm_num [HL.ThemeItem.components, HL.StyleModifier.components,
      HL.Color.components, HL.Theme.components])
    (by simp [HL.Theme.components, HL.ThemeItem.components,
      HL.StyleModifier.components, HL.Color.components])

/-- C9 counterexample: at exactly 150 scope entries — within the claim's
"at most `components() / ThemeItem::components()`" bound — the update
panics: `components() - scopes.len() * ThemeItem::components() - 1`
underflows `usize`, so nothing like exactly `components()` components is
consumed. -/
theorem theme_update_at_cap_panics :
    HL.Theme.update ⟨List.replicate 150 itemZ⟩ (List.replicate 1200 (F.fin 0))
      = none := by
  unfold HL.Theme.update
  cases hs : HL.updateScopes (List.replicate 150 itemZ)
      (List.replicate 1200 (F.fin 0)) with
  | none => rfl
  | some p =>
      obtain ⟨ys1, it1⟩ := p
      simp [Option.bind_eq_bind, Option.some_bind, List.length_replicate,
        HL.ThemeItem.components, HL.StyleModifier.components,
        HL.Color.components, HL.Theme.components]
